import Mathlib

/-!
# Verification of the MPRAGE-like image pipeline (`get_mpragelike.py`)

Shallow embedding of the script's core: the contrast-file selector
(`get_img_paths`), the contrast binding loop of `get_img_arrays`, the ratio
compositor (`mprage_like_img`) with its numerical-cleanup steps, the
regularization-spec processing of `main`, and the sweep driver.

Modelling choices:
* Filenames and CLI strings are modelled as `List Char` (`Str`); a directory
  is modelled by its listing, a `List Str`, in listing order.
* The numpy float arithmetic of the compositor is modelled over exact
  rationals extended with IEEE special values (`FVal`: finite, +inf, -inf,
  NaN).  Rounding and overflow of finite float values are abstracted away;
  the special-value propagation of the operations used by the script
  (subtraction, addition, scaling, division) is modelled exactly.
* numpy's in-place mask assignments are modelled by a heap of arrays
  (`Store`) with explicit allocation and in-place update, so that aliasing
  and frame properties are genuine statements.
-/

/-- Filenames / CLI strings are modelled as lists of characters. -/
abbrev Str := List Char

/-- Convert a Lean string literal to the `Str` model. -/
def str (s : String) : Str := s.data

/-- `isPrefL n h` : does `h` start with `n`? -/
def isPrefL : Str → Str → Bool
  | [], _ => true
  | _ :: _, [] => false
  | a :: as, b :: bs => a == b && isPrefL as bs

/-- `substrB n h` models the Python substring test `n in h`. -/
def substrB (n : Str) : Str → Bool
  | [] => isPrefL n []
  | c :: t => isPrefL n (c :: t) || substrB n t

/-- Split a character list at every occurrence of a separator character,
accumulator-style; models Python `str.split(sep)` for a one-character
separator.  `cur` is the (reversed) chunk currently being read. -/
def splitSep (sep : Char) : Str → Str → List Str
  | [], cur => [cur.reverse]
  | c :: cs, cur =>
    if c == sep then cur.reverse :: splitSep sep cs [] else splitSep sep cs (c :: cur)

/-- Strip leading and trailing whitespace, as Python `int()` does before
parsing. -/
def pyTrim (l : Str) : Str :=
  ((l.dropWhile Char.isWhitespace).reverse.dropWhile Char.isWhitespace).reverse

/-- Value of a list of decimal digit characters. -/
def digitsVal (l : Str) : Nat := l.foldl (fun n c => 10 * n + (c.toNat - 48)) 0

/-- Models Python `int(s)` on ASCII strings (without underscore digit
separators): strip whitespace, then an optional sign followed by a nonempty
string of decimal digits; anything else raises `ValueError`, modelled as
`none`. -/
def pyInt (l : Str) : Option Int :=
  match pyTrim l with
  | [] => none
  | '-' :: ds => if !ds.isEmpty && ds.all Char.isDigit then some (-(digitsVal ds : Int)) else none
  | '+' :: ds => if !ds.isEmpty && ds.all Char.isDigit then some ((digitsVal ds : Int)) else none
  | ds => if ds.all Char.isDigit then some ((digitsVal ds : Int)) else none

/-- Failures the embedded script can raise: `ValueError` from `int()` and
`UnboundLocalError` from reading a never-assigned local. -/
inductive RunErr
  | valueError
  | unboundLocal
deriving DecidableEq

/-- `get_img_paths` (source lines 76–91), with the directory replaced by its
listing `dirList`.  Line 82 of the source tests `('.nii' and echo_num) in f`;
the Python `and` of two strings returns its second operand, so only the echo
token is actually tested — the embedding reproduces that. -/
def get_img_paths (path2img : Str) (dirList : List Str) (echo : Str) : List Str :=
  let echo_num := str "_e" ++ echo
  let nii_files := dirList.filter (fun f => substrB echo_num f)
  let nii_files2 :=
    if nii_files.isEmpty then dirList.filter (fun f => substrB (str ".nii") f) else nii_files
  let magn_files :=
    nii_files2.filter (fun m => !(substrB (str "_ph") m || substrB (str "phase") m))
  magn_files.map (fun m => path2img ++ str "/" ++ m)

/-- The three contrast kinds of the pipeline. -/
inductive Contrast
  | T1
  | PD
  | MT
deriving DecidableEq

/-- The contrast-kind test of the loop body of `get_img_arrays` (source lines
100–116): an if/elif cascade of substring tests on the full candidate path,
T1 first, then PD, then MT. -/
def classifyContrast (p : Str) : Option Contrast :=
  if substrB (str "t1") p || substrB (str "T1") p then some .T1
  else if substrB (str "pd") p || substrB (str "PD") p then some .PD
  else if substrB (str "mt") p || substrB (str "MT") p then some .MT
  else none

/-- The local variables of `get_img_arrays` holding the selected file per
contrast kind (`none` = never assigned). -/
structure Slots where
  t1 : Option Str
  pd : Option Str
  mt : Option Str
deriving DecidableEq

/-- One iteration of the `get_img_arrays` loop: a matching candidate
overwrites its kind's slot. -/
def bindStep (s : Slots) (p : Str) : Slots :=
  match classifyContrast p with
  | some .T1 => { s with t1 := some p }
  | some .PD => { s with pd := some p }
  | some .MT => { s with mt := some p }
  | none => s

/-- The `get_img_arrays` loop over all candidate paths, in listing order. -/
def bindSlots (paths : List Str) : Slots :=
  paths.foldl bindStep ⟨none, none, none⟩

/-- `get_img_arrays` (source lines 95–118): run the binding loop, then the
`return` statement reads all three locals; if any was never assigned, Python
raises `UnboundLocalError`. -/
def get_img_arrays (paths : List Str) : Except RunErr (Str × Str × Str) :=
  match (bindSlots paths).t1, (bindSlots paths).pd, (bindSlots paths).mt with
  | some a, some b, some c => .ok (a, b, c)
  | _, _, _ => .error .unboundLocal

/-- The contrast-mode strings accepted by `mprage_like_img` and
`save_mprage_like` ('all', 'PD', 'MT'). -/
inductive Weight
  | all
  | PD
  | MT
deriving DecidableEq

/-- The string the mode is spelled as in the source. -/
def weightName : Weight → Str
  | .all => str "all"
  | .PD => str "PD"
  | .MT => str "MT"

/-- The output filename built by `save_mprage_like` (source lines 161–166):
`'%s_%s_e%s_%s_reg%s.nii' % (subID, 'mprage-like', echo, weight, reg)`. -/
def mkSaveName (subID echo : Str) (w : Weight) (r : Str) : Str :=
  subID ++ str "_" ++ str "mprage-like" ++ str "_e" ++ echo ++ str "_" ++
    weightName w ++ str "_reg" ++ r ++ str ".nii"

/-- The `reg` argument processing of `main` (source lines 47–52): if the raw
argument contains `'['`, strip all `'['` and `']'` characters and split on
`','` — the elements stay unparsed strings; otherwise parse the whole
argument with `int()`. -/
def procReg (reg : Str) : Except RunErr (Int ⊕ List Str) :=
  if substrB (str "[") reg then
    .ok (.inr (splitSep ',' ((reg.filter (fun c => c != '[')).filter (fun c => c != ']')) []))
  else
    match pyInt reg with
    | some n => .ok (.inl n)
    | none => .error .valueError

/-- Observable outcome of one invocation: the regularization values passed to
the compositor (in call order), the filenames persisted (in write order), and
the error terminating the run, if any. -/
structure RunResult where
  composites : List Int
  saved : List Str
  err : Option RunErr
deriving DecidableEq

/-- The sweep loop of `main` (source lines 70–73): for each element `r` of
the list, first `int(r)` is evaluated (a non-numeric element raises
`ValueError` at this point, aborting the loop), then the compositor runs with
that value and the artifact is saved under a name embedding the raw string
`r`. -/
def runSweep (subID echo : Str) (w : Weight) : List Str → RunResult
  | [] => ⟨[], [], none⟩
  | r :: rs =>
    match pyInt r with
    | none => ⟨[], [], some .valueError⟩
    | some n =>
      let rest := runSweep subID echo w rs
      ⟨n :: rest.composites, mkSaveName subID echo w r :: rest.saved, rest.err⟩

/-- The control flow of `main` relevant to selection, reg processing and the
sweep (source lines 47–73): process `reg`, list and select candidate files,
bind the contrast slots (failing if one is unbound), then run the single
compositor call or the sweep. -/
def runMain (path2img : Str) (dirList : List Str) (echo subID : Str)
    (contrast : Weight) (regArg : Str) : RunResult :=
  match procReg regArg with
  | .error e => ⟨[], [], some e⟩
  | .ok spec =>
    match get_img_arrays (get_img_paths path2img dirList echo) with
    | .error e => ⟨[], [], some e⟩
    | .ok _ =>
      match spec with
      | .inl n => ⟨[n], [mkSaveName subID echo contrast (str (toString n))], none⟩
      | .inr rs => runSweep subID echo contrast rs

/-! ## The compositor's arithmetic: rationals with IEEE special values -/

/-- A float value: an exact finite rational, an infinity, or NaN.  Signed
zeros and rounding are abstracted away. -/
inductive FVal
  | fin : ℚ → FVal
  | pinf : FVal
  | ninf : FVal
  | nan : FVal
deriving DecidableEq

/-- IEEE addition on `FVal`. -/
def fadd : FVal → FVal → FVal
  | .nan, _ => .nan
  | _, .nan => .nan
  | .pinf, .ninf => .nan
  | .ninf, .pinf => .nan
  | .pinf, _ => .pinf
  | _, .pinf => .pinf
  | .ninf, _ => .ninf
  | _, .ninf => .ninf
  | .fin a, .fin b => .fin (a + b)

/-- IEEE subtraction on `FVal`. -/
def fsub : FVal → FVal → FVal
  | .nan, _ => .nan
  | _, .nan => .nan
  | .pinf, .pinf => .nan
  | .ninf, .ninf => .nan
  | .pinf, _ => .pinf
  | _, .pinf => .ninf
  | .ninf, _ => .ninf
  | _, .ninf => .pinf
  | .fin a, .fin b => .fin (a - b)

/-- IEEE multiplication on `FVal`. -/
def fmul : FVal → FVal → FVal
  | .nan, _ => .nan
  | _, .nan => .nan
  | .pinf, .pinf => .pinf
  | .pinf, .ninf => .ninf
  | .ninf, .pinf => .ninf
  | .ninf, .ninf => .pinf
  | .pinf, .fin b => if b = 0 then .nan else if 0 < b then .pinf else .ninf
  | .fin a, .pinf => if a = 0 then .nan else if 0 < a then .pinf else .ninf
  | .ninf, .fin b => if b = 0 then .nan else if 0 < b then .ninf else .pinf
  | .fin a, .ninf => if a = 0 then .nan else if 0 < a then .ninf else .pinf
  | .fin a, .fin b => .fin (a * b)

/-- IEEE division on `FVal` (numpy semantics for array division): a nonzero
finite value divided by zero gives a signed infinity, `0/0` gives NaN. -/
def fdiv : FVal → FVal → FVal
  | .nan, _ => .nan
  | _, .nan => .nan
  | .pinf, .pinf => .nan
  | .pinf, .ninf => .nan
  | .ninf, .pinf => .nan
  | .ninf, .ninf => .nan
  | .pinf, .fin b => if b < 0 then .ninf else .pinf
  | .ninf, .fin b => if b < 0 then .pinf else .ninf
  | .fin _, .pinf => .fin 0
  | .fin _, .ninf => .fin 0
  | .fin a, .fin b =>
    if b = 0 then (if a = 0 then .nan else if 0 < a then .pinf else .ninf)
    else .fin (a / b)

/-- The raw (pre-cleanup) per-voxel formula of `mprage_like_img` (source
lines 123–130), by contrast mode. -/
def rawRatioF (w : Weight) (t1v pdv mtv : FVal) (reg : ℚ) : FVal :=
  match w with
  | .all => fdiv (fsub t1v (.fin reg)) (fadd (fmul (.fin 0.5) (fadd pdv mtv)) (.fin reg))
  | .MT => fdiv (fsub t1v (.fin reg)) (fadd mtv (.fin reg))
  | .PD => fdiv (fsub t1v (.fin reg)) (fadd pdv (.fin reg))

/-- The per-mode denominator of the raw formula, for finite voxel values. -/
def denomOf (w : Weight) (pdq mtq reg : ℚ) : ℚ :=
  match w with
  | .all => 0.5 * (pdq + mtq) + reg
  | .MT => mtq + reg
  | .PD => pdq + reg

/-- Largest finite float32 value, which `np.nan_to_num` substitutes for
`+inf` in a float32 array (and its negation for `-inf`). -/
def f32max : ℚ := 340282346638528859811704183484516925440

/-- Per-element effect of `np.nan_to_num` (source line 134): NaN becomes 0,
infinities become the largest-magnitude finite float32 values. -/
def nanToNum : FVal → FVal
  | .nan => .fin 0
  | .pinf => .fin f32max
  | .ninf => .fin (-f32max)
  | .fin q => .fin q

/-- Per-element effect of the mask assignment `x[x == np.inf] = 0` (source
line 137). -/
def zeroPInf : FVal → FVal
  | .pinf => .fin 0
  | v => v

/-- Per-element effect of the mask assignment `x[x > 500] = 0` (source line
138); numpy evaluates `+inf > 500` as true and `NaN > 500` as false. -/
def zeroGt500 : FVal → FVal
  | .pinf => .fin 0
  | .fin q => if 500 < q then .fin 0 else .fin q
  | v => v

/-- Per-element effect of the mask assignment `x[x < 0] = 0` (source line
141); numpy evaluates `-inf < 0` as true and `NaN < 0` as false. -/
def zeroNeg : FVal → FVal
  | .ninf => .fin 0
  | .fin q => if q < 0 then .fin 0 else .fin q
  | v => v

/-- The full cleanup pipeline of `mprage_like_img`, in source order (lines
134–141). -/
def cleanup (v : FVal) : FVal := zeroNeg (zeroGt500 (zeroPInf (nanToNum v)))

/-- Per-voxel value of `mprage_like_img`: the raw mode formula followed by
the cleanup steps. -/
def mprageVoxel (w : Weight) (t1v pdv mtv : FVal) (reg : ℚ) : FVal :=
  cleanup (rawRatioF w t1v pdv mtv reg)

/-- Element-wise combination of three arrays (numpy broadcasting over equal
shapes). -/
def zipWith3F (f : FVal → FVal → FVal → FVal) : List FVal → List FVal → List FVal → List FVal
  | a :: as, b :: bs, c :: cs => f a b c :: zipWith3F f as bs cs
  | _, _, _ => []

/-! ## Heap model for allocation, aliasing and in-place updates -/

/-- A heap of numpy arrays: `next` is the number of arrays allocated so far,
`mem r` the contents of the array referenced by `r` (for `r < next`). -/
structure Store where
  next : Nat
  mem : Nat → List FVal

/-- Read the array referenced by `r`. -/
def readArr (s : Store) (r : Nat) : List FVal := s.mem r

/-- Allocate a fresh array and return its reference. -/
def allocArr (s : Store) (a : List FVal) : Store × Nat :=
  (⟨s.next + 1, fun x => if x = s.next then a else s.mem x⟩, s.next)

/-- Overwrite the array referenced by `r` in place. -/
def writeArr (s : Store) (r : Nat) (a : List FVal) : Store :=
  ⟨s.next, fun x => if x = r then a else s.mem x⟩

/-- `mprage_like_img` (source lines 120–146) on the heap model.  The array
arithmetic of lines 123–130 allocates a fresh result array; `np.nan_to_num`
(line 134, default `copy=True`) allocates another fresh array; the three mask
assignments of lines 137, 138 and 141 then mutate that second array in
place, and its reference is returned. -/
def mprage_like_img (s : Store) (rt rp rm : Nat) (reg : ℚ) (w : Weight) : Store × Nat :=
  let raw := zipWith3F (fun a b c => rawRatioF w a b c reg)
    (readArr s rt) (readArr s rp) (readArr s rm)
  let p1 := allocArr s raw
  let p2 := allocArr p1.1 ((readArr p1.1 p1.2).map nanToNum)
  let s2 := p2.1
  let rout := p2.2
  let s3 := writeArr s2 rout ((readArr s2 rout).map zeroPInf)
  let s4 := writeArr s3 rout ((readArr s3 rout).map zeroGt500)
  let s5 := writeArr s4 rout ((readArr s4 rout).map zeroNeg)
  (s5, rout)

/-! ## Spec-side definitions, used to compare the code with the claims -/

/-- Modelled from the spec: the first Selector filter as the claim states it,
keeping exactly the files whose name contains both the `.nii` format marker
and the echo-suffix token. -/
def specFirstFilter (dirList : List Str) (echo : Str) : List Str :=
  dirList.filter (fun f => substrB (str ".nii") f && substrB (str "_e" ++ echo) f)

/-- Lowercase every character of a name. -/
def lowerStr (l : Str) : Str := l.map Char.toLower

/-- The filename component of a path: everything after the last `/`. -/
def baseNameOf (p : Str) : Str := (splitSep '/' p []).getLastD p

/-- Modelled from the spec: contrast-kind binding as the claim states it — a
case-insensitive substring match of the kind tokens against the filename
only, T1 checked first, then PD, then MT. -/
def specClassifyCI (p : Str) : Option Contrast :=
  let f := lowerStr (baseNameOf p)
  if substrB (str "t1") f then some .T1
  else if substrB (str "pd") f then some .PD
  else if substrB (str "mt") f then some .MT
  else none

/-- Modelled from the spec: the candidate a kind's slot would hold if the
first match in listing order won, as the claim states it. -/
def specFirstBound (k : Contrast) (paths : List Str) : Option Str :=
  paths.find? (fun p => decide (classifyContrast p = some k))

/-- The last candidate of a kind in listing order (the amended binding rule):
a match occurring later in the list wins over an earlier one. -/
def lastBound (k : Contrast) : List Str → Option Str
  | [] => none
  | p :: ps =>
    match lastBound k ps with
    | some q => some q
    | none => if classifyContrast p = some k then some p else none

/-- A concrete three-array heap, used to instantiate the frame theorem. -/
def storeEx : Store := ⟨3, fun _ => []⟩

/-! ## Helper lemmas -/

lemma foldl_bindStep_t1 (paths : List Str) : ∀ acc : Slots,
    (paths.foldl bindStep acc).t1
      = match lastBound .T1 paths with
        | some q => some q
        | none => acc.t1 := by
  induction paths with
  | nil => intro acc; rfl
  | cons p ps ih =>
    intro acc
    rw [List.foldl_cons, ih]
    cases h : lastBound .T1 ps with
    | some q => simp [lastBound, h]
    | none =>
      simp only [lastBound, h]
      cases hc : classifyContrast p with
      | none => simp [bindStep, hc]
      | some k => cases k <;> simp [bindStep, hc]

lemma foldl_bindStep_pd (paths : List Str) : ∀ acc : Slots,
    (paths.foldl bindStep acc).pd
      = match lastBound .PD paths with
        | some q => some q
        | none => acc.pd := by
  induction paths with
  | nil => intro acc; rfl
  | cons p ps ih =>
    intro acc
    rw [List.foldl_cons, ih]
    cases h : lastBound .PD ps with
    | some q => simp [lastBound, h]
    | none =>
      simp only [lastBound, h]
      cases hc : classifyContrast p with
      | none => simp [bindStep, hc]
      | some k => cases k <;> simp [bindStep, hc]

lemma foldl_bindStep_mt (paths : List Str) : ∀ acc : Slots,
    (paths.foldl bindStep acc).mt
      = match lastBound .MT paths with
        | some q => some q
        | none => acc.mt := by
  induction paths with
  | nil => intro acc; rfl
  | cons p ps ih =>
    intro acc
    rw [List.foldl_cons, ih]
    cases h : lastBound .MT ps with
    | some q => simp [lastBound, h]
    | none =>
      simp only [lastBound, h]
      cases hc : classifyContrast p with
      | none => simp [bindStep, hc]
      | some k => cases k <;> simp [bindStep, hc]

lemma lastBound_eq_none (k : Contrast) (paths : List Str)
    (h : ∀ p ∈ paths, classifyContrast p ≠ some k) : lastBound k paths = none := by
  induction paths with
  | nil => rfl
  | cons p ps ih =>
    have hp := h p (List.mem_cons_self p ps)
    rw [lastBound, ih (fun q hq => h q (List.mem_cons_of_mem _ hq))]
    simp [hp]

lemma bindSlots_pd_none (paths : List Str)
    (h : ∀ p ∈ paths, classifyContrast p ≠ some .PD) : (bindSlots paths).pd = none := by
  simp only [bindSlots, foldl_bindStep_pd, lastBound_eq_none .PD paths h]

lemma bindSlots_mt_none (paths : List Str)
    (h : ∀ p ∈ paths, classifyContrast p ≠ some .MT) : (bindSlots paths).mt = none := by
  simp only [bindSlots, foldl_bindStep_mt, lastBound_eq_none .MT paths h]

lemma mkSaveName_inj_reg {subID echo : Str} {w : Weight} {r1 r2 : Str}
    (h : mkSaveName subID echo w r1 = mkSaveName subID echo w r2) : r1 = r2 := by
  simp only [mkSaveName] at h
  exact List.append_cancel_left (List.append_cancel_right h)

/-! ## Claims -/

/-- C1: for every contrast mode and non-negative integer regularization
value, at every voxel where the denominator is non-zero and the raw ratio is
finite and lies in [0, 500], the compositor's output equals the mode's raw
formula result, unmodified by the cleanup steps. -/
theorem c1_in_range_passthrough (w : Weight) (t1q pdq mtq : ℚ) (reg : ℕ)
    (hden : denomOf w pdq mtq (reg : ℚ) ≠ 0)
    (h0 : 0 ≤ (t1q - (reg : ℚ)) / denomOf w pdq mtq (reg : ℚ))
    (h500 : (t1q - (reg : ℚ)) / denomOf w pdq mtq (reg : ℚ) ≤ 500) :
    mprageVoxel w (.fin t1q) (.fin pdq) (.fin mtq) (reg : ℚ)
      = rawRatioF w (.fin t1q) (.fin pdq) (.fin mtq) (reg : ℚ) := by
  have hraw : rawRatioF w (.fin t1q) (.fin pdq) (.fin mtq) (reg : ℚ)
      = .fin ((t1q - (reg : ℚ)) / denomOf w pdq mtq (reg : ℚ)) := by
    cases w <;>
      simp only [rawRatioF, fsub, fadd, fmul, fdiv, denomOf] <;>
      rw [if_neg (by simpa [denomOf] using hden)]
  rw [mprageVoxel, hraw]
  simp [cleanup, nanToNum, zeroPInf, zeroGt500, zeroNeg, not_lt.mpr h500, not_lt.mpr h0]

/-- Witness for C1 at mode PD, T1 = 150, PD = 100, reg = 100: the ratio is
50/200 = 1/4 and passes through the cleanup unchanged. -/
theorem c1_in_range_passthrough_witness :
    mprageVoxel .PD (.fin 150) (.fin 100) (.fin 0) ((100 : ℕ) : ℚ)
      = rawRatioF .PD (.fin 150) (.fin 100) (.fin 0) ((100 : ℕ) : ℚ) :=
  c1_in_range_passthrough .PD 150 100 0 100 (by norm_num [denomOf])
    (by norm_num [denomOf]) (by norm_num [denomOf])

/-- C2: at every voxel where the raw ratio is NaN, +infinity, greater than
500, or negative, the compositor's output is exactly 0 after the cleanup
steps run in source order. -/
theorem c2_cleanup_zeroes (w : Weight) (t1v pdv mtv : FVal) (reg : ℚ)
    (h : rawRatioF w t1v pdv mtv reg = .nan ∨ rawRatioF w t1v pdv mtv reg = .pinf ∨
      ∃ q : ℚ, rawRatioF w t1v pdv mtv reg = .fin q ∧ (500 < q ∨ q < 0)) :
    mprageVoxel w t1v pdv mtv reg = .fin 0 := by
  rw [mprageVoxel]
  rcases h with h | h | ⟨q, hq, hq2 | hq2⟩
  · rw [h]; norm_num [cleanup, nanToNum, zeroPInf, zeroGt500, zeroNeg]
  · rw [h]; norm_num [cleanup, nanToNum, zeroPInf, zeroGt500, zeroNeg, f32max]
  · rw [hq]
    have : ¬ q < 0 := by
      intro hneg
      exact absurd (hneg.trans (by norm_num)) (not_lt.mpr hq2.le)
    simp [cleanup, nanToNum, zeroPInf, zeroGt500, zeroNeg, hq2]
  · rw [hq]
    have hn : ¬ 500 < q := not_lt.mpr (hq2.le.trans (by norm_num))
    simp [cleanup, nanToNum, zeroPInf, zeroGt500, zeroNeg, hq2, hn]

/-- Witness for C2 at mode PD with T1 = 1, PD = 0, reg = 0: the raw ratio is
1/0 = +infinity and the output is 0. -/
theorem c2_cleanup_zeroes_witness :
    mprageVoxel .PD (.fin 1) (.fin 0) (.fin 0) 0 = .fin 0 :=
  c2_cleanup_zeroes .PD (.fin 1) (.fin 0) (.fin 0) 0
    (Or.inr (Or.inl (by norm_num [rawRatioF, fsub, fadd, fdiv])))

/-- C3 (code bug): the selector's first filter is claimed to keep exactly the
files containing both the `.nii` marker and the echo token, but line 82's
`('.nii' and echo_num) in f` only tests the echo token: the non-NIfTI file
`notes_e1.txt` is kept by the code (and survives to the candidate list),
while the claimed filter excludes it. -/
theorem c3_first_filter_ignores_format_marker :
    get_img_paths (str "d") [str "notes_e1.txt"] (str "1") = [str "d/notes_e1.txt"] ∧
    specFirstFilter [str "notes_e1.txt"] (str "1") = [] :=
  ⟨by decide, by decide⟩

/-- C4 counterexample: with two T1-matching candidates, the code binds the
second (last) one, not the first match in listing order. -/
theorem c4_counterexample :
    (bindSlots [str "d/a_t1_e1.nii", str "d/zz_t1_e1.nii"]).t1
      ≠ specFirstBound .T1 [str "d/a_t1_e1.nii", str "d/zz_t1_e1.nii"] := by decide

/-- C4 (amended): when several candidate files match the same contrast kind,
the slot holds the last match in directory listing order (each later match
overwrites the slot). -/
theorem c4_last_match_wins (paths : List Str) :
    (bindSlots paths).t1 = lastBound .T1 paths ∧
    (bindSlots paths).pd = lastBound .PD paths ∧
    (bindSlots paths).mt = lastBound .MT paths := by
  refine ⟨?_, ?_, ?_⟩
  · simp only [bindSlots, foldl_bindStep_t1]
    cases lastBound .T1 paths <;> rfl
  · simp only [bindSlots, foldl_bindStep_pd]
    cases lastBound .PD paths <;> rfl
  · simp only [bindSlots, foldl_bindStep_mt]
    cases lastBound .MT paths <;> rfl

/-- C5 counterexample: with the malformed spec `[100,abc]` the run does fail
with a parse error, but only after the first sweep iteration has already
composited (and saved) with reg = 100 — not before any compositing. -/
theorem c5_counterexample :
    (runMain (str "d") [str "a_t1_e1.nii", str "b_pd_e1.nii", str "c_mt_e1.nii"] (str "1")
        (str "s") .all (str "[100,abc]")).err = some .valueError ∧
    (runMain (str "d") [str "a_t1_e1.nii", str "b_pd_e1.nii", str "c_mt_e1.nii"] (str "1")
        (str "s") .all (str "[100,abc]")).composites = [100] :=
  ⟨by decide, by decide⟩

/-- C5 (amended): a scalar (unbracketed) non-numeric spec fails with a parse
error before any compositing; a bracketed list's elements are parsed only
inside the sweep loop, so the sweep composites and saves exactly the longest
parsable prefix of the list and fails with a parse error if any element is
non-numeric. -/
theorem c5_reg_parse_timing :
    (∀ (path2img : Str) (dirList : List Str) (echo subID : Str) (w : Weight) (regArg : Str),
      substrB (str "[") regArg = false → pyInt regArg = none →
      runMain path2img dirList echo subID w regArg = ⟨[], [], some .valueError⟩) ∧
    (∀ (subID echo : Str) (w : Weight) (rs : List Str),
      runSweep subID echo w rs =
        ⟨(rs.takeWhile (fun r => (pyInt r).isSome)).filterMap pyInt,
         (rs.takeWhile (fun r => (pyInt r).isSome)).map (mkSaveName subID echo w),
         if rs.all (fun r => (pyInt r).isSome) then none else some .valueError⟩) := by
  constructor
  · intro path2img dirList echo subID w regArg h1 h2
    simp [runMain, procReg, h1, h2]
  · intro subID echo w rs
    induction rs with
    | nil => rfl
    | cons r rs ih =>
      cases hp : pyInt r with
      | none => simp [runSweep, hp]
      | some n => simp [runSweep, hp, ih]

/-- Witness for C5 (amended): the scalar spec `abc` fails before anything
runs; the sweep over `["100", "x"]` composites and saves for `100` and then
fails on `x`. -/
theorem c5_reg_parse_timing_witness :
    runMain (str "d") [] (str "1") (str "s") .all (str "abc") = ⟨[], [], some .valueError⟩ ∧
    runSweep (str "s") (str "1") .all [str "100", str "x"]
      = ⟨[100], [mkSaveName (str "s") (str "1") .all (str "100")], some .valueError⟩ := by
  refine ⟨c5_reg_parse_timing.1 (str "d") [] (str "1") (str "s") .all (str "abc")
    (by decide) (by decide), ?_⟩
  rw [c5_reg_parse_timing.2]
  decide

/-- C6 counterexample: the binding is neither case-insensitive nor restricted
to the filename. The mixed-case name `sub_Pd_e1.nii` matches no kind in the
code although the claimed case-insensitive filename match binds it to PD; and
for `T1_dir/sub_pd_e1.nii` the code binds T1 because the directory component
of the full path is inspected, while the claimed rule binds the filename to
PD. -/
theorem c6_counterexample :
    classifyContrast (str "sub_Pd_e1.nii") ≠ specClassifyCI (str "sub_Pd_e1.nii") ∧
    classifyContrast (str "T1_dir/sub_pd_e1.nii")
      ≠ specClassifyCI (str "T1_dir/sub_pd_e1.nii") :=
  ⟨by decide, by decide⟩

/-- C6 (amended): contrast-kind binding inspects the full candidate path,
using exact substring matches against the two literal spellings of each
kind's token (all-lowercase or all-uppercase; mixed case does not match),
with the fixed precedence T1, then PD, then MT. -/
theorem c6_token_match_and_precedence (p : Str) :
    (classifyContrast p = some .T1 ↔
      (substrB (str "t1") p || substrB (str "T1") p) = true) ∧
    (classifyContrast p = some .PD ↔
      ((substrB (str "t1") p || substrB (str "T1") p) = false ∧
       (substrB (str "pd") p || substrB (str "PD") p) = true)) ∧
    (classifyContrast p = some .MT ↔
      ((substrB (str "t1") p || substrB (str "T1") p) = false ∧
       (substrB (str "pd") p || substrB (str "PD") p) = false ∧
       (substrB (str "mt") p || substrB (str "MT") p) = true)) := by
  cases h1 : (substrB (str "t1") p || substrB (str "T1") p) <;>
  cases h2 : (substrB (str "pd") p || substrB (str "PD") p) <;>
  cases h3 : (substrB (str "mt") p || substrB (str "MT") p) <;>
    simp [classifyContrast, h1, h2, h3]

/-- C7: when no candidate file matches a contrast kind required by the
selected mode (here: no PD match while mode is PD), the run terminates with
the unbound-local error raised where the contrast is first used, with no
compositor call and no file written. -/
theorem c7_missing_required_contrast (path2img : Str) (dirList : List Str)
    (echo subID regArg : Str) (spec : Int ⊕ List Str)
    (hreg : procReg regArg = .ok spec)
    (h : ∀ p ∈ get_img_paths path2img dirList echo, classifyContrast p ≠ some .PD) :
    runMain path2img dirList echo subID .PD regArg = ⟨[], [], some .unboundLocal⟩ := by
  have hpd := bindSlots_pd_none _ h
  have harr : get_img_arrays (get_img_paths path2img dirList echo)
      = .error .unboundLocal := by
    simp only [get_img_arrays, hpd]
    cases (bindSlots (get_img_paths path2img dirList echo)).t1 <;>
      cases (bindSlots (get_img_paths path2img dirList echo)).mt <;> rfl
  simp [runMain, hreg, harr]

/-- Witness for C7: a directory holding only T1 and MT files, mode PD. -/
theorem c7_missing_required_contrast_witness :
    runMain (str "d") [str "a_t1_e1.nii", str "c_mt_e1.nii"] (str "1") (str "s") .PD
        (str "100")
      = ⟨[], [], some .unboundLocal⟩ :=
  c7_missing_required_contrast (str "d") [str "a_t1_e1.nii", str "c_mt_e1.nii"] (str "1")
    (str "s") (str "100") (.inl 100) rfl (by decide)

/-- C8: a sweep with regularization spec `[0, 100, 300]` performs exactly 3
compositor calls and persists exactly 3 artifacts with pairwise distinct
names, each embedding the subject id, echo, mode and its own regularization
value (the raw list elements `0`, ` 100`, ` 300`); the scalar spec `100`
yields exactly one call and one artifact. -/
theorem c8_sweep_counts (path2img : Str) (dirList : List Str) (echo subID : Str)
    (w : Weight) (v : Str × Str × Str)
    (hok : get_img_arrays (get_img_paths path2img dirList echo) = .ok v) :
    runMain path2img dirList echo subID w (str "[0, 100, 300]")
      = ⟨[0, 100, 300],
         [mkSaveName subID echo w (str "0"), mkSaveName subID echo w (str " 100"),
          mkSaveName subID echo w (str " 300")], none⟩ ∧
    mkSaveName subID echo w (str "0") ≠ mkSaveName subID echo w (str " 100") ∧
    mkSaveName subID echo w (str "0") ≠ mkSaveName subID echo w (str " 300") ∧
    mkSaveName subID echo w (str " 100") ≠ mkSaveName subID echo w (str " 300") ∧
    runMain path2img dirList echo subID w (str "100")
      = ⟨[100], [mkSaveName subID echo w (str "100")], none⟩ := by
  refine ⟨?_, ?_, ?_, ?_, ?_⟩
  · have hp : procReg (str "[0, 100, 300]")
        = .ok (.inr [str "0", str " 100", str " 300"]) := rfl
    simp only [runMain, hp, hok]
    simp [runSweep, show pyInt (str "0") = some 0 from rfl,
      show pyInt (str " 100") = some 100 from rfl,
      show pyInt (str " 300") = some 300 from rfl]
  · intro hc; exact absurd (mkSaveName_inj_reg hc) (by decide)
  · intro hc; exact absurd (mkSaveName_inj_reg hc) (by decide)
  · intro hc; exact absurd (mkSaveName_inj_reg hc) (by decide)
  · have hp : procReg (str "100") = .ok (.inl 100) := rfl
    simp only [runMain, hp, hok]
    rfl

/-- Witness for C8 on a directory holding one file per contrast. -/
theorem c8_sweep_counts_witness :
    runMain (str "d") [str "a_t1_e1.nii", str "b_pd_e1.nii", str "c_mt_e1.nii"] (str "1")
        (str "s") .all (str "[0, 100, 300]")
      = ⟨[0, 100, 300],
         [mkSaveName (str "s") (str "1") .all (str "0"),
          mkSaveName (str "s") (str "1") .all (str " 100"),
          mkSaveName (str "s") (str "1") .all (str " 300")], none⟩ ∧
    mkSaveName (str "s") (str "1") .all (str "0")
      ≠ mkSaveName (str "s") (str "1") .all (str " 100") ∧
    mkSaveName (str "s") (str "1") .all (str "0")
      ≠ mkSaveName (str "s") (str "1") .all (str " 300") ∧
    mkSaveName (str "s") (str "1") .all (str " 100")
      ≠ mkSaveName (str "s") (str "1") .all (str " 300") ∧
    runMain (str "d") [str "a_t1_e1.nii", str "b_pd_e1.nii", str "c_mt_e1.nii"] (str "1")
        (str "s") .all (str "100")
      = ⟨[100], [mkSaveName (str "s") (str "1") .all (str "100")], none⟩ :=
  c8_sweep_counts (str "d") [str "a_t1_e1.nii", str "b_pd_e1.nii", str "c_mt_e1.nii"]
    (str "1") (str "s") .all
    (str "d/a_t1_e1.nii", str "d/b_pd_e1.nii", str "d/c_mt_e1.nii") rfl

/-- The reference returned by a compositor call is the second array allocated
during the call. -/
lemma mprage_ref_eq (s : Store) (rt rp rm : Nat) (reg : ℚ) (w : Weight) :
    (mprage_like_img s rt rp rm reg w).2 = s.next + 1 := rfl

/-- A compositor call allocates exactly two arrays. -/
lemma mprage_next_eq (s : Store) (rt rp rm : Nat) (reg : ℚ) (w : Weight) :
    (mprage_like_img s rt rp rm reg w).1.next = s.next + 2 := rfl

/-- A compositor call leaves every array already allocated before the call
unchanged. -/
lemma mprage_mem_old (s : Store) (rt rp rm : Nat) (reg : ℚ) (w : Weight) (r : Nat)
    (hr : r < s.next) :
    (mprage_like_img s rt rp rm reg w).1.mem r = s.mem r := by
  have h1 : r ≠ s.next := by omega
  have h2 : r ≠ s.next + 1 := by omega
  simp [mprage_like_img, allocArr, writeArr, readArr, h1, h2]

/-- C9: a compositor call leaves its three input arrays unchanged, returns a
freshly allocated array distinct from all three input references, and a
second call (the next sweep iteration) returns yet another reference and
leaves the first call's output unchanged. -/
theorem c9_compositor_frame (s : Store) (rt rp rm : Nat) (reg reg2 : ℚ)
    (w w2 : Weight) (hrt : rt < s.next) (hrp : rp < s.next) (hrm : rm < s.next) :
    readArr (mprage_like_img s rt rp rm reg w).1 rt = readArr s rt ∧
    readArr (mprage_like_img s rt rp rm reg w).1 rp = readArr s rp ∧
    readArr (mprage_like_img s rt rp rm reg w).1 rm = readArr s rm ∧
    (mprage_like_img s rt rp rm reg w).2 ≠ rt ∧
    (mprage_like_img s rt rp rm reg w).2 ≠ rp ∧
    (mprage_like_img s rt rp rm reg w).2 ≠ rm ∧
    (mprage_like_img (mprage_like_img s rt rp rm reg w).1 rt rp rm reg2 w2).2
      ≠ (mprage_like_img s rt rp rm reg w).2 ∧
    readArr (mprage_like_img (mprage_like_img s rt rp rm reg w).1 rt rp rm reg2 w2).1
        ((mprage_like_img s rt rp rm reg w).2)
      = readArr (mprage_like_img s rt rp rm reg w).1
          ((mprage_like_img s rt rp rm reg w).2) := by
  refine ⟨?_, ?_, ?_, ?_, ?_, ?_, ?_, ?_⟩
  · exact mprage_mem_old s rt rp rm reg w rt hrt
  · exact mprage_mem_old s rt rp rm reg w rp hrp
  · exact mprage_mem_old s rt rp rm reg w rm hrm
  · rw [mprage_ref_eq]; omega
  · rw [mprage_ref_eq]; omega
  · rw [mprage_ref_eq]; omega
  · rw [mprage_ref_eq, mprage_ref_eq, mprage_next_eq]; omega
  · have hlt : s.next + 1 < (mprage_like_img s rt rp rm reg w).1.next := by
      rw [mprage_next_eq]; omega
    have := mprage_mem_old (mprage_like_img s rt rp rm reg w).1 rt rp rm reg2 w2
      (s.next + 1) hlt
    simp only [readArr, mprage_ref_eq]
    exact this

/-- Witness for C9 on a three-array heap with the inputs at references 0, 1
and 2. -/
theorem c9_compositor_frame_witness :
    readArr (mprage_like_img storeEx 0 1 2 100 .all).1 0 = readArr storeEx 0 ∧
    (mprage_like_img storeEx 0 1 2 100 .all).2 ≠ 0 ∧
    (mprage_like_img (mprage_like_img storeEx 0 1 2 100 .all).1 0 1 2 0 .all).2
      ≠ (mprage_like_img storeEx 0 1 2 100 .all).2 := by
  obtain ⟨h1, _, _, h4, _, _, h7, _⟩ :=
    c9_compositor_frame storeEx 0 1 2 100 0 .all .all (by decide) (by decide) (by decide)
  exact ⟨h1, h4, h7⟩

/-- C10: all three contrast kinds must find a matching candidate for the run
to proceed, whatever the selected mode: with no MT-matching candidate, every
mode (including PD, whose formula never uses MT) fails with the unbound-local
error before any compositing, and nothing is written. -/
theorem c10_unused_contrast_still_required (path2img : Str) (dirList : List Str)
    (echo subID regArg : Str) (w : Weight) (spec : Int ⊕ List Str)
    (hreg : procReg regArg = .ok spec)
    (h : ∀ p ∈ get_img_paths path2img dirList echo, classifyContrast p ≠ some .MT) :
    runMain path2img dirList echo subID w regArg = ⟨[], [], some .unboundLocal⟩ := by
  have hmt := bindSlots_mt_none _ h
  have harr : get_img_arrays (get_img_paths path2img dirList echo)
      = .error .unboundLocal := by
    simp only [get_img_arrays, hmt]
    cases (bindSlots (get_img_paths path2img dirList echo)).t1 <;>
      cases (bindSlots (get_img_paths path2img dirList echo)).pd <;> rfl
  simp [runMain, hreg, harr]

/-- Witness for C10: T1 and PD files present, no MT file, mode PD. -/
theorem c10_unused_contrast_still_required_witness :
    runMain (str "d") [str "a_t1_e1.nii", str "b_pd_e1.nii"] (str "1") (str "s") .PD
        (str "100")
      = ⟨[], [], some .unboundLocal⟩ :=
  c10_unused_contrast_still_required (str "d") [str "a_t1_e1.nii", str "b_pd_e1.nii"]
    (str "1") (str "s") (str "100") .PD (.inl 100) rfl (by decide)
